import Mathlib

/-!
# Verification of the Meeting Manager availability / assignment core

Shallow embedding of `meeting_manager/utils/validation.py`,
`meeting_manager/api/assignment.py` and `meeting_manager/utils/timezone.py`.

Conventions:
* a calendar date is an `Int` day number, with day 0 a Monday, so that
  Python's `date.weekday()` (Monday = 0) becomes `d % 7`;
* a time of day is a `Nat` number of minutes since midnight (`00:00` = 0);
* a datetime instant is an `Int` number of minutes, `date * 1440 + time`;
* Frappe documents become plain records; `frappe.get_all` / SQL queries
  become `List.filter` over an in-memory `Env`.
-/

namespace MeetingManager

abbrev UserId := String

/-- Minutes per day. -/
def minutesPerDay : Int := 1440

/-- `datetime.combine(date, time)` as an absolute instant in minutes. -/
def combine (date : Int) (t : Nat) : Int := date * minutesPerDay + t

/-- The calendar date of an instant (`DATE(dt)` / `.date()`): floor division. -/
def dateOf (dt : Int) : Int := dt / minutesPerDay

/-- The wall-clock time of day of an instant (`.time()`). -/
def timeOfDay (dt : Int) : Nat := (dt % minutesPerDay).toNat

/-- Python `date.weekday()`: 0 = Monday … 6 = Sunday (day 0 is a Monday). -/
def weekdayNat (date : Int) : Nat := (date % 7).toNat

/-- Two-digit zero padding, as in `strftime('%H:%M')`. -/
def pad2 (n : Nat) : String := if n < 10 then "0" ++ toString n else toString n

/-- Render a time of day as `HH:MM`. -/
def fmtTime (t : Nat) : String := pad2 (t / 60) ++ ":" ++ pad2 (t % 60)

/-- Capitalised weekday names, indexed by `date.weekday()`. -/
def dayNameCap (i : Nat) : String :=
  ["Monday", "Tuesday", "Wednesday", "Thursday", "Friday", "Saturday", "Sunday"].getD i "Monday"

/-- One weekday's entry of the `working_hours_json` blob:
`{enabled, start, end}` with the source's defaults
(`enabled` → `False`, `start` → `"00:00"`, `end` → `"23:59"`). -/
structure DayConfig where
  enabled : Bool
  dayStart : Nat
  dayEnd : Nat
deriving Repr, DecidableEq

/-- The missing-day default `day_config = {}` after applying the `get` defaults. -/
def DayConfig.empty : DayConfig := ⟨false, 0, 23 * 60 + 59⟩

/-- `MM User Settings`: `working_hours_json` parsed; `none` models both a
missing record / empty field and invalid JSON (all treated as 24/7). -/
structure UserSettings where
  workingHours : Option (List DayConfig)
deriving Repr

/-- One `MM User Date Overrides` child row. -/
structure DateOverride where
  date : Int
  available : Bool
  customStart : Option Nat
  customEnd : Option Nat
  reason : Option String
deriving Repr, DecidableEq

/-- One `MM User Availability Rule` document.  Numeric fields use `0` for
SQL `NULL`, matching the Python code which treats both as falsy
(`or 0` for buffers, `if rule.max_bookings_per_day:` for quotas). -/
structure AvailabilityRule where
  isDefault : Bool
  bufferBefore : Nat
  bufferAfter : Nat
  maxPerDay : Nat
  maxPerWeek : Nat
  overrides : List DateOverride
deriving Repr, DecidableEq

/-- `booking_status` select options of `MM Meeting Booking`. -/
inductive BookingStatus
  | pending | confirmed | cancelled | completed | noShow | rescheduled
deriving Repr, DecidableEq

/-- `MM Meeting Booking` with its `MM Meeting Booking Assigned User` child
rows collapsed into the `assigned` list (the SQL joins on that child table
and selects DISTINCT parents, i.e. membership). -/
structure Booking where
  name : String
  startDt : Int
  endDt : Int
  status : BookingStatus
  assigned : List UserId
deriving Repr, DecidableEq

/-- `MM Calendar Event Sync` joined with its `MM Calendar Integration`
(providing `user`). -/
structure CalendarEvent where
  user : UserId
  title : Option String
  startDt : Int
  endDt : Int
  isBlockingAvailability : Bool
  isAllDayEvent : Bool
  syncStatusSynced : Bool
deriving Repr, DecidableEq

/-- The database state consulted by the checks. `rules u` is the list of
`MM User Availability Rule` documents for user `u` in database order. -/
structure Env where
  settings : UserId → Option UserSettings
  rules : UserId → List AvailabilityRule
  bookings : List Booking
  events : List CalendarEvent

/-- `mb.booking_status IN ('Confirmed', 'Pending')` — the status filter used
by every conflict / count query in `validation.py`. -/
def countsForConflicts (s : BookingStatus) : Bool :=
  s == .confirmed || s == .pending

/-- `exclude_condition`: `mb.name != exclude_booking` when an exclusion is given. -/
def notExcluded (excl : Option String) (b : Booking) : Bool :=
  match excl with
  | some e => b.name != e
  | none => true

/-- `check_working_hours`: `some reason` models `{"available": False, "reason": r}`. -/
def check_working_hours (env : Env) (member : UserId) (scheduledDate : Int)
    (startT endT : Nat) : Option String :=
  match env.settings member with
  | none => none
  | some us =>
    match us.workingHours with
    | none => none
    | some wh =>
      let dayIdx := weekdayNat scheduledDate
      let cfg := wh.getD dayIdx DayConfig.empty
      if !cfg.enabled then
        some ("Member is not available on " ++ dayNameCap dayIdx ++ "s")
      else if startT < cfg.dayStart || endT > cfg.dayEnd then
        some ("Time is outside working hours (" ++ fmtTime cfg.dayStart ++ " - "
          ++ fmtTime cfg.dayEnd ++ ")")
      else none

/-- The inner `for override in overrides:` loop of `check_date_overrides`:
first violation returns, a passing override continues the loop. -/
def scanOverrides (startT endT : Nat) : List DateOverride → Option String
  | [] => none
  | o :: rest =>
    if !o.available then
      some (o.reason.getD "Member is not available on this date")
    else
      match o.customStart, o.customEnd with
      | some cs, some ce =>
        if startT < cs || endT > ce then
          some ("Time is outside custom hours for this date (" ++ fmtTime cs
            ++ " - " ++ fmtTime ce ++ ")")
        else scanOverrides startT endT rest
      | _, _ => scanOverrides startT endT rest

/-- The outer `for rule in availability_rules:` loop of `check_date_overrides`. -/
def scanRules (startT endT : Nat) (scheduledDate : Int) :
    List AvailabilityRule → Option String
  | [] => none
  | r :: rest =>
    match scanOverrides startT endT (r.overrides.filter (fun o => o.date == scheduledDate)) with
    | some reason => some reason
    | none => scanRules startT endT scheduledDate rest

/-- `check_date_overrides`. -/
def check_date_overrides (env : Env) (member : UserId) (scheduledDate : Int)
    (startT endT : Nat) : Option String :=
  scanRules startT endT scheduledDate (env.rules member)

/-- One element of the list returned by `check_booking_conflicts`. -/
structure BookingConflict where
  bookingId : String
  message : String
deriving Repr, DecidableEq

/-- `check_booking_conflicts`: the SQL query filters on assignment, status
`Confirmed`/`Pending`, half-open overlap with the date+time window, and the
optional exclusion. -/
def check_booking_conflicts (env : Env) (member : UserId) (scheduledDate : Int)
    (startT endT : Nat) (excl : Option String) : List BookingConflict :=
  let sdt := combine scheduledDate startT
  let edt := combine scheduledDate endT
  (env.bookings.filter (fun b =>
    b.assigned.contains member
    && countsForConflicts b.status
    && decide (b.startDt < edt) && decide (b.endDt > sdt)
    && notExcluded excl b)).map (fun b =>
      { bookingId := b.name
        message := "Conflicts with existing booking " ++ b.name ++ " ("
          ++ fmtTime (timeOfDay b.startDt) ++ " - " ++ fmtTime (timeOfDay b.endDt) ++ ")" })

/-- One element of the list returned by `check_calendar_event_conflicts`. -/
structure CalendarConflict where
  eventTitle : String
  message : String
deriving Repr, DecidableEq

/-- `check_calendar_event_conflicts` (takes true instants, not wrapped times). -/
def check_calendar_event_conflicts (env : Env) (member : UserId)
    (startDt endDt : Int) : List CalendarConflict :=
  (env.events.filter (fun e =>
    e.user == member
    && e.isBlockingAvailability
    && !e.isAllDayEvent
    && e.syncStatusSynced
    && decide (e.startDt < endDt) && decide (e.endDt > startDt))).map (fun e =>
      let t := e.title.getD "Busy"
      { eventTitle := t
        message := "Conflicts with calendar event: " ++ t ++ " ("
          ++ fmtTime (timeOfDay e.startDt) ++ " - " ++ fmtTime (timeOfDay e.endDt) ++ ")" })

/-- `frappe.get_all(..., order_by="is_default desc", limit=1)`: the default
rule when one exists, otherwise the first rule in database order. -/
def selectRule (rules : List AvailabilityRule) : Option AvailabilityRule :=
  match rules.filter (·.isDefault) with
  | r :: _ => some r
  | [] => rules.head?

/-- `check_buffer_time_conflicts`.  The SQL pre-filter keeps same-date
Confirmed/Pending bookings with an edge inside `[buffer_start, buffer_end]`;
the Python loop then classifies each as a "before" or "after" violation. -/
def check_buffer_time_conflicts (env : Env) (member : UserId)
    (startDt endDt : Int) (excl : Option String) : List String :=
  match selectRule (env.rules member) with
  | none => []
  | some rule =>
    let bb := rule.bufferBefore
    let ba := rule.bufferAfter
    if bb == 0 && ba == 0 then []
    else
      let bufStart := startDt - bb
      let bufEnd := endDt + ba
      let nearby := env.bookings.filter (fun b =>
        b.assigned.contains member
        && dateOf b.startDt == dateOf startDt
        && countsForConflicts b.status
        && ((decide (b.startDt ≥ bufStart) && decide (b.startDt < bufEnd))
            || (decide (b.endDt > bufStart) && decide (b.endDt ≤ bufEnd)))
        && notExcluded excl b)
      nearby.foldr (fun b acc =>
        if !(b.endDt ≤ bufStart || b.startDt ≥ bufEnd) then
          if b.endDt > bufStart && b.endDt ≤ startDt then
            ("Violates " ++ toString bb ++ "-minute buffer before meeting (conflicts with "
              ++ b.name ++ ")") :: acc
          else if b.startDt < bufEnd && b.startDt ≥ endDt then
            ("Violates " ++ toString ba ++ "-minute buffer after meeting (conflicts with "
              ++ b.name ++ ")") :: acc
          else acc
        else acc) []

/-- Daily quota count: Confirmed/Pending bookings of `member` whose start
date equals `scheduledDate`. -/
def dayBookingCount (env : Env) (member : UserId) (scheduledDate : Int) : Nat :=
  (env.bookings.filter (fun b =>
    b.assigned.contains member
    && dateOf b.startDt == scheduledDate
    && countsForConflicts b.status)).length

/-- Weekly quota count over `DATE(start) BETWEEN week_start AND week_end`. -/
def weekBookingCount (env : Env) (member : UserId) (weekStart weekEnd : Int) : Nat :=
  (env.bookings.filter (fun b =>
    b.assigned.contains member
    && decide (weekStart ≤ dateOf b.startDt) && decide (dateOf b.startDt ≤ weekEnd)
    && countsForConflicts b.status)).length

/-- `check_availability_rules` (daily then weekly quota). -/
def check_availability_rules (env : Env) (member : UserId) (scheduledDate : Int) :
    Option String :=
  match selectRule (env.rules member) with
  | none => none
  | some rule =>
    if rule.maxPerDay ≠ 0 && dayBookingCount env member scheduledDate ≥ rule.maxPerDay then
      some ("Member has reached maximum bookings per day (" ++ toString rule.maxPerDay ++ ")")
    else
      let weekStart := scheduledDate - (weekdayNat scheduledDate : Int)
      let weekEnd := weekStart + 6
      if rule.maxPerWeek ≠ 0 && weekBookingCount env member weekStart weekEnd ≥ rule.maxPerWeek then
        some ("Member has reached maximum bookings per week (" ++ toString rule.maxPerWeek ++ ")")
      else none

/-- Kinds of conflict records appended by `check_member_availability`,
in check order 1–6. -/
inductive ConflictType
  | workingHours | dateOverride | bookingConflict | calendarEvent | bufferTime | availabilityRule
deriving Repr, DecidableEq

/-- Numeric rank of a conflict type: the number of the check producing it. -/
def ConflictType.rank : ConflictType → Nat
  | .workingHours => 1
  | .dateOverride => 2
  | .bookingConflict => 3
  | .calendarEvent => 4
  | .bufferTime => 5
  | .availabilityRule => 6

/-- One entry of the `conflicts` list (the dict's optional keys modelled
as optional fields). -/
structure Conflict where
  ctype : ConflictType
  message : String
  bookingId : Option String := none
  eventTitle : Option String := none
deriving Repr, DecidableEq

/-- The dict returned by `check_member_availability`. -/
structure AvailabilityResult where
  available : Bool
  conflicts : List Conflict
  reason : Option String
deriving Repr, DecidableEq

/-- Check 1's contribution to the `conflicts` list. -/
def workingHoursPart (env : Env) (member : UserId) (scheduledDate : Int)
    (startT endT : Nat) : List Conflict :=
  match check_working_hours env member scheduledDate startT endT with
  | some r => [{ ctype := .workingHours, message := r }]
  | none => []

/-- Check 2's contribution to the `conflicts` list. -/
def overridePart (env : Env) (member : UserId) (scheduledDate : Int)
    (startT endT : Nat) : List Conflict :=
  match check_date_overrides env member scheduledDate startT endT with
  | some r => [{ ctype := .dateOverride, message := r }]
  | none => []

/-- Check 3's contribution to the `conflicts` list. -/
def bookingPart (env : Env) (member : UserId) (scheduledDate : Int)
    (startT endT : Nat) (excl : Option String) : List Conflict :=
  (check_booking_conflicts env member scheduledDate startT endT excl).map
    (fun b => { ctype := .bookingConflict, message := b.message, bookingId := some b.bookingId })

/-- Check 4's contribution to the `conflicts` list. -/
def calendarPart (env : Env) (member : UserId) (startDt endDt : Int) : List Conflict :=
  (check_calendar_event_conflicts env member startDt endDt).map
    (fun e => { ctype := .calendarEvent, message := e.message, eventTitle := some e.eventTitle })

/-- Check 5's contribution to the `conflicts` list. -/
def bufferPart (env : Env) (member : UserId) (startDt endDt : Int)
    (excl : Option String) : List Conflict :=
  (check_buffer_time_conflicts env member startDt endDt excl).map
    (fun m => { ctype := .bufferTime, message := m })

/-- Check 6's contribution to the `conflicts` list. -/
def quotaPart (env : Env) (member : UserId) (scheduledDate : Int) : List Conflict :=
  match check_availability_rules env member scheduledDate with
  | some r => [{ ctype := .availabilityRule, message := r }]
  | none => []

/-- `check_member_availability`: runs the six checks in order and
aggregates their conflicts.  The end time is
`(datetime.combine(date, start) + timedelta(minutes=duration)).time()`,
i.e. it wraps around midnight; checks 1–3 receive the wrapped time-of-day,
checks 4–5 receive the true instants. -/
def check_member_availability (env : Env) (member : UserId) (scheduledDate : Int)
    (startT : Nat) (durationMinutes : Nat) (excl : Option String := none) :
    AvailabilityResult :=
  let startDt := combine scheduledDate startT
  let endDt := startDt + durationMinutes
  let endT : Nat := (startT + durationMinutes) % 1440
  let conflicts :=
    workingHoursPart env member scheduledDate startT endT
    ++ overridePart env member scheduledDate startT endT
    ++ bookingPart env member scheduledDate startT endT excl
    ++ calendarPart env member startDt endDt
    ++ bufferPart env member startDt endDt excl
    ++ quotaPart env member scheduledDate
  { available := conflicts.isEmpty
    conflicts := conflicts
    reason := conflicts.head?.map (·.message) }

/-! ## Assignment algorithms (`api/assignment.py`) -/
/-- One `MM Department Member` child row. -/
structure DeptMember where
  member : UserId
  isActive : Bool
  assignmentPriority : Nat := 1
  lastAssigned : Option Int := none
  totalAssignments : Nat := 0
deriving Repr, DecidableEq

/-- `MM Department`: `algorithm = none` models a falsy
`assignment_algorithm` (NULL or empty string). -/
structure Department where
  name : String
  departmentName : String
  algorithm : Option String
  members : List DeptMember
deriving Repr, DecidableEq

/-- The three `frappe.throw` sites of `assign_to_member`. -/
inductive AssignError
  | noAlgorithm | noActiveMembers | noAvailableMembers
deriving Repr, DecidableEq

/-- The dict returned by `assign_to_member`. -/
structure AssignOutcome where
  assignedTo : UserId
  assignmentMethod : String
  reason : String
deriving Repr, DecidableEq

/-- Python's `sorted(..., key=...)`: a stable comparison sort
(insertion sort, inserting each element before the first element it
compares `≤` to, which preserves the original order of ties). -/
def stableSort (le : α → α → Bool) (l : List α) : List α :=
  List.insertionSort (fun a b => le a b = true) l

/-- The Round Robin sort key: `m.last_assigned_datetime or datetime(1970, 1, 1)`,
with the epoch at instant 0. -/
def rrKey (m : DeptMember) : Int := m.lastAssigned.getD 0

/-- `assign_round_robin`: stable sort by `rrKey` ascending, pick index 0. -/
def assign_round_robin (availableMembers : List DeptMember) : Option DeptMember :=
  (stableSort (fun a b => rrKey a ≤ rrKey b) availableMembers).head?

/-- The Least Busy booking count: Confirmed/Pending bookings of the member
with `start_datetime BETWEEN scheduled_date AND scheduled_date + 7 days`
(SQL casts the dates to midnight instants, both ends inclusive). -/
def lbCount (env : Env) (scheduledDate : Int) (m : DeptMember) : Nat :=
  (env.bookings.filter (fun b =>
    b.assigned.contains m.member
    && decide (combine scheduledDate 0 ≤ b.startDt)
    && decide (b.startDt ≤ combine (scheduledDate + 7) 0)
    && countsForConflicts b.status)).length

/-- `assign_least_busy`: stable sort by `(booking_count, rrKey)` ascending. -/
def assign_least_busy (env : Env) (availableMembers : List DeptMember)
    (scheduledDate : Int) : Option DeptMember :=
  (stableSort (fun a b =>
    lbCount env scheduledDate a < lbCount env scheduledDate b
    || (lbCount env scheduledDate a == lbCount env scheduledDate b && rrKey a ≤ rrKey b))
    availableMembers).head?

/-- `update_member_assignment_tracking`: find the first matching member row,
set `last_assigned_datetime = now`, increment `total_assignments`, break. -/
def updateFirstMember (member : UserId) (now : Int) : List DeptMember → List DeptMember
  | [] => []
  | m :: ms =>
    if m.member == member then
      { m with lastAssigned := some now, totalAssignments := m.totalAssignments + 1 } :: ms
    else m :: updateFirstMember member now ms

/-- `update_member_assignment_tracking` on the whole department document. -/
def update_member_assignment_tracking (dept : Department) (member : UserId)
    (now : Int) : Department :=
  { dept with members := updateFirstMember member now dept.members }

/-- `assign_to_member`: algorithm guard, active filter, availability filter,
algorithm dispatch with Round Robin default, then tracking update.
`now` stands for `now_datetime()`. -/
def assign_to_member (env : Env) (dept : Department) (scheduledDate : Int)
    (startT : Nat) (durationMinutes : Nat) (now : Int) :
    Except AssignError (AssignOutcome × Department) :=
  match dept.algorithm with
  | none => .error .noAlgorithm
  | some alg =>
    let activeMembers := dept.members.filter (·.isActive)
    if activeMembers.isEmpty then .error .noActiveMembers
    else
      let availableMembers := activeMembers.filter (fun m =>
        (check_member_availability env m.member scheduledDate startT durationMinutes).available)
      if availableMembers.isEmpty then .error .noAvailableMembers
      else
        let picked : Option (DeptMember × String) :=
          if alg == "Round Robin" then
            (assign_round_robin availableMembers).map (·, "Round Robin")
          else if alg == "Least Busy" then
            (assign_least_busy env availableMembers scheduledDate).map (·, "Least Busy")
          else
            (assign_round_robin availableMembers).map (·, "Round Robin (default)")
        match picked with
        | none => .error .noAvailableMembers
        | some (m, method) =>
          let dept' := update_member_assignment_tracking dept m.member now
          .ok ({ assignedTo := m.member
                 assignmentMethod := method
                 reason := "Assigned using " ++ method ++ " algorithm" }, dept')

/-! ## Timezone conversion (`utils/timezone.py` over the pytz library)

`convert_to_timezone` localizes a naive datetime with
`pytz_timezone.localize(dt)` — pytz's `DstTzInfo.localize`, whose default
argument is `is_dst=False` — and then converts with `astimezone`.
The model below follows pytz's `localize` algorithm: probe the timezone's
transition table one day before and after the naive time, keep the
interpretations that round-trip, and dispatch on the number of candidates
(1 = unique, 0 = nonexistent, 2 = ambiguous).  `NonExistentTimeError` /
`AmbiguousTimeError` are raised only under `is_dst=None`. -/
/-- A `(utcoffset, dst-flag)` pair, pytz's per-interval `tzinfo` data
(offsets in minutes). -/
structure TzInterval where
  utcOffset : Int
  isDst : Bool
deriving Repr, DecidableEq

/-- A pytz timezone: the info in force before the first transition, plus an
ascending list of `(UTC transition instant, info from then on)`. -/
structure PytzTimezone where
  base : TzInterval
  transitions : List (Int × TzInterval)
deriving Repr, DecidableEq

/-- The interval in force at a UTC instant (pytz's bisect over
`_utc_transition_times`, clamped to the first entry). -/
def tzIntervalAt (tz : PytzTimezone) (t : Int) : TzInterval :=
  tz.transitions.foldl (fun acc ti => if ti.1 ≤ t then ti.2 else acc) tz.base

/-- The errors `localize` can raise, plus fuel exhaustion of the model's
bounded recursion (pytz recurses in 6-hour steps for gap times). -/
inductive TzError
  | nonexistentTime | ambiguousTime | outOfFuel
deriving Repr, DecidableEq

/-- A successfully localized datetime: its absolute UTC instant and the
interval whose offset interpreted the naive wall-clock time. -/
structure Localized where
  utc : Int
  info : TzInterval
deriving Repr, DecidableEq

/-- One probe of pytz's `localize` loop: guess the interval in force around
`dt + delta`, normalize, and keep the interpretation only if it round-trips
to the same wall-clock time. -/
def probeCandidate (tz : PytzTimezone) (dt delta : Int) : Option Localized :=
  let info0 := tzIntervalAt tz (dt + delta)
  let utc0 := dt - info0.utcOffset
  let info1 := tzIntervalAt tz utc0
  if utc0 + info1.utcOffset == dt then some ⟨utc0, info1⟩ else none

/-- pytz's `possible_loc_dt` set, built from the day-before and day-after
probes (a set: equal candidates collapse). -/
def localCandidates (tz : PytzTimezone) (dt : Int) : List Localized :=
  match probeCandidate tz dt (-1440), probeCandidate tz dt 1440 with
  | some a, some b => if a == b then [a] else [a, b]
  | some a, none => [a]
  | none, some b => [b]
  | none, none => []

/-- A naive wall-clock time that no UTC instant maps to (spring-forward gap). -/
def isNonexistentLocal (tz : PytzTimezone) (dt : Int) : Bool :=
  (localCandidates tz dt).isEmpty

/-- A naive wall-clock time that two UTC instants map to (fall-back overlap). -/
def isAmbiguousLocal (tz : PytzTimezone) (dt : Int) : Bool :=
  decide ((localCandidates tz dt).length ≥ 2)

/-- `min(dates)` of pytz's final fallback: the candidate with the smallest
UTC instant. -/
def minByUtc : List Localized → Option Localized
  | [] => none
  | c :: cs => some (cs.foldl (fun a b => if b.utc < a.utc then b else a) c)

/-- pytz `DstTzInfo.localize(dt, is_dst)`.  `isDst = none` models
`is_dst=None` (raise on gap/overlap); `some b` models `is_dst=b`
(resolve silently, recursing in 6-hour steps out of a gap). -/
def pytzLocalize (tz : PytzTimezone) : Nat → Int → Option Bool → Except TzError Localized
  | 0, _, _ => .error .outOfFuel
  | fuel + 1, dt, isDst =>
    match localCandidates tz dt with
    | [c] => .ok c
    | [] =>
      match isDst with
      | none => .error .nonexistentTime
      | some true =>
        (pytzLocalize tz fuel (dt + 360) (some true)).map
          (fun c => { c with utc := c.utc - 360 })
      | some false =>
        (pytzLocalize tz fuel (dt - 360) (some false)).map
          (fun c => { c with utc := c.utc + 360 })
    | cands =>
      match isDst with
      | none => .error .ambiguousTime
      | some b =>
        let filtered := cands.filter (fun c => c.info.isDst == b)
        match filtered with
        | [c] => .ok c
        | _ =>
          match minByUtc (if filtered.isEmpty then cands else filtered) with
          | some c => .ok c
          | none => .error .ambiguousTime

/-- Recursion bound for the model (real pytz recursion out of a DST gap
terminates after a handful of 6-hour steps). -/
def localizeFuel : Nat := 10

/-- An aware datetime after `astimezone`: same instant, wall clock and
interval of the target timezone. -/
structure ZonedDatetime where
  utc : Int
  wall : Int
  info : TzInterval
deriving Repr, DecidableEq

/-- `dt.astimezone(to_timezone)` applied to an absolute instant. -/
def astimezone (tz : PytzTimezone) (utc : Int) : ZonedDatetime :=
  let i := tzIntervalAt tz utc
  { utc := utc, wall := utc + i.utcOffset, info := i }

/-- `convert_to_timezone` for a naive input: localize in the source
timezone with pytz's default `is_dst=False`, then `astimezone` to the
target. -/
def convert_to_timezone (dt : Int) (fromTz toTz : PytzTimezone) :
    Except TzError ZonedDatetime :=
  (pytzLocalize fromTz localizeFuel dt (some false)).map (fun c => astimezone toTz c.utc)

/-- `pytz.timezone("UTC")`: constant zero offset. -/
def utcTz : PytzTimezone := { base := ⟨0, false⟩, transitions := [] }

/-- `convert_to_utc(dt, source_tz) = convert_to_timezone(dt, source_tz, "UTC")`. -/
def convert_to_utc (dt : Int) (sourceTz : PytzTimezone) : Except TzError ZonedDatetime :=
  convert_to_timezone dt sourceTz utcTz

/-- A toy DST timezone (standard offset −5:00, DST −4:00): spring-forward
at UTC instant 1000 (local gap [700, 760)), fall-back at UTC instant 5000
(local overlap [4700, 4760)). -/
def tzToy : PytzTimezone :=
  { base := ⟨-300, false⟩
    transitions := [(1000, ⟨-240, true⟩), (5000, ⟨-300, false⟩)] }

/-! ## C1: date override versus working hours -/
/-- An enabled 09:00–17:00 working day. -/
def wh9to17 : DayConfig := ⟨true, 540, 1020⟩

/-- Member `alice`: working hours disable Monday, but a default availability
rule carries a date override for day 0 (a Monday) marked available with
custom hours 09:00–12:00. -/
def envC1 : Env :=
  { settings := fun u =>
      if u = "alice" then
        some ⟨some [⟨false, 540, 1020⟩, wh9to17, wh9to17, wh9to17, wh9to17,
          ⟨false, 0, 1439⟩, ⟨false, 0, 1439⟩]⟩
      else none
    rules := fun u =>
      if u = "alice" then
        [{ isDefault := true, bufferBefore := 0, bufferAfter := 0,
           maxPerDay := 0, maxPerWeek := 0,
           overrides := [⟨0, true, some 540, some 720, none⟩] }]
      else []
    bookings := []
    events := [] }

/-! ## C2: buffer-time orientation -/
/-- Member `bob`: default rule with `buffer_after = 15`, `buffer_before = 0`,
and an existing Confirmed booking 09:30–10:00 on day 10. -/
def envC2a : Env :=
  { settings := fun _ => none
    rules := fun u =>
      if u = "bob" then
        [{ isDefault := true, bufferBefore := 0, bufferAfter := 15,
           maxPerDay := 0, maxPerWeek := 0, overrides := [] }]
      else []
    bookings := [⟨"B1", combine 10 570, combine 10 600, .confirmed, ["bob"]⟩]
    events := [] }

/-- Same as `envC2a` but with `buffer_before = 15`, `buffer_after = 0`. -/
def envC2b : Env :=
  { settings := fun _ => none
    rules := fun u =>
      if u = "bob" then
        [{ isDefault := true, bufferBefore := 15, bufferAfter := 0,
           maxPerDay := 0, maxPerWeek := 0, overrides := [] }]
      else []
    bookings := [⟨"B1", combine 10 570, combine 10 600, .confirmed, ["bob"]⟩]
    events := [] }

/-! ## C4: which booking statuses reserve a slot -/
/-- The environment with bookings restricted to the statuses the queries
select (`Confirmed`/`Pending`). -/
def envRestrict (env : Env) : Env :=
  { env with bookings := env.bookings.filter (fun b => countsForConflicts b.status) }

/-- The No-Show overlapping booking used against C4: member `carol` has a
`No-Show` booking 10:00–11:00 on day 20 and nothing else. -/
def envC4 : Env :=
  { settings := fun _ => none
    rules := fun _ => []
    bookings := [⟨"N1", combine 20 600, combine 20 660, .noShow, ["carol"]⟩]
    events := [] }

/-! ## C5: half-open overlap characterisation -/
/-- A `Rescheduled` (hence non-terminal) booking overlapping the requested
window for member `dana` on day 30. -/
def envC5x : Env :=
  { settings := fun _ => none
    rules := fun _ => []
    bookings := [⟨"R1", combine 30 600, combine 30 660, .rescheduled, ["dana"]⟩]
    events := [] }

/-- Concrete objects for C5's witness. -/
def bookingA5 : Booking := ⟨"A5", combine 0 600, combine 0 630, .confirmed, ["m"]⟩

/-! ## C10: durations crossing midnight -/
/-- Member `frank` with a Confirmed booking spanning the whole of day 40
(00:00 day 40 to 00:00 day 41). -/
def envC10 : Env :=
  { settings := fun _ => none
    rules := fun _ => []
    bookings := [⟨"S1", combine 40 0, combine 41 0, .confirmed, ["frank"]⟩]
    events := [] }

/-- Member `frank` with a Confirmed booking 00:00–02:00 on day 41, fully
covering the next-day portion of a 23:30+60min request made for day 40. -/
def envC10b : Env :=
  { settings := fun _ => none
    rules := fun _ => []
    bookings := [⟨"T1", combine 41 0, combine 41 120, .confirmed, ["frank"]⟩]
    events := [] }

/-! ## C7 / C8: assignment dispatch and Round Robin -/
/-- The candidate set `assign_to_member` selects from: active members that
the evaluator reports available. -/
def availableMembersOf (env : Env) (dept : Department) (scheduledDate : Int)
    (startT durationMinutes : Nat) : List DeptMember :=
  (dept.members.filter (·.isActive)).filter (fun m =>
    (check_member_availability env m.member scheduledDate startT durationMinutes).available)

/-- An empty environment: no settings, rules, bookings or events, so every
member is always available. -/
def envEmpty : Env := ⟨fun _ => none, fun _ => [], [], []⟩

/-- A department with one active available member but no
`assignment_algorithm` configured. -/
def deptC7 : Department := ⟨"D7", "Support", none, [⟨"dave", true, 1, none, 0⟩]⟩

/-- A department whose configured algorithm string is unrecognized. -/
def deptC7b : Department := ⟨"D7b", "Support", some "Fancy", [⟨"dave", true, 1, none, 0⟩]⟩

/-- A three-member Round Robin department with no prior assignments. -/
def deptRR : Department :=
  ⟨"DRR", "Sales", some "Round Robin",
    [⟨"a", true, 1, none, 0⟩, ⟨"b", true, 1, none, 0⟩, ⟨"c", true, 1, none, 0⟩]⟩

/-- `deptRR` after the first assignment (to `a` at instant 100). -/
def deptRR1 : Department :=
  ⟨"DRR", "Sales", some "Round Robin",
    [⟨"a", true, 1, some 100, 1⟩, ⟨"b", true, 1, none, 0⟩, ⟨"c", true, 1, none, 0⟩]⟩

/-- `deptRR1` after the second assignment (to `b` at instant 200). -/
def deptRR2 : Department :=
  ⟨"DRR", "Sales", some "Round Robin",
    [⟨"a", true, 1, some 100, 1⟩, ⟨"b", true, 1, some 200, 1⟩, ⟨"c", true, 1, none, 0⟩]⟩

/-- `deptRR2` after the third assignment (to `c` at instant 300). -/
def deptRR3 : Department :=
  ⟨"DRR", "Sales", some "Round Robin",
    [⟨"a", true, 1, some 100, 1⟩, ⟨"b", true, 1, some 200, 1⟩, ⟨"c", true, 1, some 300, 1⟩]⟩

/-! ## C9: daily / weekly quota -/
/-- Member `erin` with `max_bookings_per_day = 2` and two `No-Show`
bookings on day 30. -/
def envC9x : Env :=
  { settings := fun _ => none
    rules := fun u =>
      if u = "erin" then
        [{ isDefault := true, bufferBefore := 0, bufferAfter := 0,
           maxPerDay := 2, maxPerWeek := 0, overrides := [] }]
      else []
    bookings := [⟨"X1", combine 30 540, combine 30 570, .noShow, ["erin"]⟩,
                 ⟨"X2", combine 30 600, combine 30 630, .noShow, ["erin"]⟩]
    events := [] }

/-- Member `erin` with `max_bookings_per_day = 2` and two `Confirmed`
bookings on day 30. -/
def envC9a : Env :=
  { settings := fun _ => none
    rules := fun u =>
      if u = "erin" then
        [{ isDefault := true, bufferBefore := 0, bufferAfter := 0,
           maxPerDay := 2, maxPerWeek := 0, overrides := [] }]
      else []
    bookings := [⟨"Y1", combine 30 540, combine 30 570, .confirmed, ["erin"]⟩,
                 ⟨"Y2", combine 30 600, combine 30 630, .confirmed, ["erin"]⟩]
    events := [] }

/-- Member `erin` with `max_bookings_per_day = 2` and one `Confirmed`
booking on day 30. -/
def envC9b : Env :=
  { settings := fun _ => none
    rules := fun u =>
      if u = "erin" then
        [{ isDefault := true, bufferBefore := 0, bufferAfter := 0,
           maxPerDay := 2, maxPerWeek := 0, overrides := [] }]
      else []
    bookings := [⟨"Y1", combine 30 540, combine 30 570, .confirmed, ["erin"]⟩]
    events := [] }

/-! ## Structural lemmas about the evaluator's conflict list -/
theorem ctype_of_mem_workingHoursPart {env member scheduledDate startT endT c}
    (h : c ∈ workingHoursPart env member scheduledDate startT endT) :
    c.ctype = .workingHours := by
  unfold workingHoursPart at h
  split at h <;> simp_all

theorem ctype_of_mem_overridePart {env member scheduledDate startT endT c}
    (h : c ∈ overridePart env member scheduledDate startT endT) :
    c.ctype = .dateOverride := by
  unfold overridePart at h
  split at h <;> simp_all

theorem ctype_of_mem_bookingPart {env member scheduledDate startT endT excl c}
    (h : c ∈ bookingPart env member scheduledDate startT endT excl) :
    c.ctype = .bookingConflict := by
  unfold bookingPart at h
  simp only [List.mem_map] at h
  obtain ⟨b, -, rfl⟩ := h
  rfl

theorem ctype_of_mem_calendarPart {env member startDt endDt c}
    (h : c ∈ calendarPart env member startDt endDt) :
    c.ctype = .calendarEvent := by
  unfold calendarPart at h
  simp only [List.mem_map] at h
  obtain ⟨e, -, rfl⟩ := h
  rfl

theorem ctype_of_mem_bufferPart {env member startDt endDt excl c}
    (h : c ∈ bufferPart env member startDt endDt excl) :
    c.ctype = .bufferTime := by
  unfold bufferPart at h
  simp only [List.mem_map] at h
  obtain ⟨m, -, rfl⟩ := h
  rfl

theorem ctype_of_mem_quotaPart {env member scheduledDate c}
    (h : c ∈ quotaPart env member scheduledDate) :
    c.ctype = .availabilityRule := by
  unfold quotaPart at h
  split at h <;> simp_all

theorem filter_ctype_eq_self {l : List Conflict} {t : ConflictType}
    (h : ∀ c ∈ l, c.ctype = t) : l.filter (fun c => c.ctype == t) = l :=
  List.filter_eq_self.mpr (fun c hc => by simp [h c hc])

theorem filter_ctype_eq_nil {l : List Conflict} {t t' : ConflictType}
    (h : ∀ c ∈ l, c.ctype = t) (hne : t ≠ t') :
    l.filter (fun c => c.ctype == t') = [] :=
  List.filter_eq_nil_iff.mpr (fun c hc => by simp [h c hc, hne])

/-- The conflict list of `check_member_availability`, written as the six
check contributions in order. -/
theorem evaluate_conflicts_eq (env : Env) (member : UserId) (scheduledDate : Int)
    (startT durationMinutes : Nat) (excl : Option String) :
    (check_member_availability env member scheduledDate startT durationMinutes excl).conflicts =
      workingHoursPart env member scheduledDate startT ((startT + durationMinutes) % 1440)
      ++ overridePart env member scheduledDate startT ((startT + durationMinutes) % 1440)
      ++ bookingPart env member scheduledDate startT ((startT + durationMinutes) % 1440) excl
      ++ calendarPart env member (combine scheduledDate startT)
          (combine scheduledDate startT + durationMinutes)
      ++ bufferPart env member (combine scheduledDate startT)
          (combine scheduledDate startT + durationMinutes) excl
      ++ quotaPart env member scheduledDate := rfl

/-- Filtering the evaluator's conflicts for `booking_conflict` entries
recovers exactly check 3's contribution. -/
theorem evaluate_filter_booking (env : Env) (member : UserId) (scheduledDate : Int)
    (startT durationMinutes : Nat) (excl : Option String) :
    (check_member_availability env member scheduledDate startT durationMinutes
        excl).conflicts.filter (fun c => c.ctype == .bookingConflict) =
      bookingPart env member scheduledDate startT ((startT + durationMinutes) % 1440) excl := by
  rw [evaluate_conflicts_eq]
  simp only [List.filter_append]
  rw [filter_ctype_eq_nil (fun c hc => ctype_of_mem_workingHoursPart hc) (by decide),
    filter_ctype_eq_nil (fun c hc => ctype_of_mem_overridePart hc) (by decide),
    filter_ctype_eq_self (fun c hc => ctype_of_mem_bookingPart hc),
    filter_ctype_eq_nil (fun c hc => ctype_of_mem_calendarPart hc) (by decide),
    filter_ctype_eq_nil (fun c hc => ctype_of_mem_bufferPart hc) (by decide),
    filter_ctype_eq_nil (fun c hc => ctype_of_mem_quotaPart hc) (by decide)]
  simp

/-- Filtering the evaluator's conflicts for `working_hours` entries
recovers exactly check 1's contribution. -/
theorem evaluate_filter_workingHours (env : Env) (member : UserId) (scheduledDate : Int)
    (startT durationMinutes : Nat) (excl : Option String) :
    (check_member_availability env member scheduledDate startT durationMinutes
        excl).conflicts.filter (fun c => c.ctype == .workingHours) =
      workingHoursPart env member scheduledDate startT ((startT + durationMinutes) % 1440) := by
  rw [evaluate_conflicts_eq]
  simp only [List.filter_append]
  rw [filter_ctype_eq_self (fun c hc => ctype_of_mem_workingHoursPart hc),
    filter_ctype_eq_nil (fun c hc => ctype_of_mem_overridePart hc) (by decide),
    filter_ctype_eq_nil (fun c hc => ctype_of_mem_bookingPart hc) (by decide),
    filter_ctype_eq_nil (fun c hc => ctype_of_mem_calendarPart hc) (by decide),
    filter_ctype_eq_nil (fun c hc => ctype_of_mem_bufferPart hc) (by decide),
    filter_ctype_eq_nil (fun c hc => ctype_of_mem_quotaPart hc) (by decide)]
  simp

/-- Filtering the evaluator's conflicts for `date_override` entries
recovers exactly check 2's contribution. -/
theorem evaluate_filter_override (env : Env) (member : UserId) (scheduledDate : Int)
    (startT durationMinutes : Nat) (excl : Option String) :
    (check_member_availability env member scheduledDate startT durationMinutes
        excl).conflicts.filter (fun c => c.ctype == .dateOverride) =
      overridePart env member scheduledDate startT ((startT + durationMinutes) % 1440) := by
  rw [evaluate_conflicts_eq]
  simp only [List.filter_append]
  rw [filter_ctype_eq_nil (fun c hc => ctype_of_mem_workingHoursPart hc) (by decide),
    filter_ctype_eq_self (fun c hc => ctype_of_mem_overridePart hc),
    filter_ctype_eq_nil (fun c hc => ctype_of_mem_bookingPart hc) (by decide),
    filter_ctype_eq_nil (fun c hc => ctype_of_mem_calendarPart hc) (by decide),
    filter_ctype_eq_nil (fun c hc => ctype_of_mem_bufferPart hc) (by decide),
    filter_ctype_eq_nil (fun c hc => ctype_of_mem_quotaPart hc) (by decide)]
  simp

/-- Filtering the evaluator's conflicts for `calendar_event` entries
recovers exactly check 4's contribution. -/
theorem evaluate_filter_calendar (env : Env) (member : UserId) (scheduledDate : Int)
    (startT durationMinutes : Nat) (excl : Option String) :
    (check_member_availability env member scheduledDate startT durationMinutes
        excl).conflicts.filter (fun c => c.ctype == .calendarEvent) =
      calendarPart env member (combine scheduledDate startT)
        (combine scheduledDate startT + durationMinutes) := by
  rw [evaluate_conflicts_eq]
  simp only [List.filter_append]
  rw [filter_ctype_eq_nil (fun c hc => ctype_of_mem_workingHoursPart hc) (by decide),
    filter_ctype_eq_nil (fun c hc => ctype_of_mem_overridePart hc) (by decide),
    filter_ctype_eq_nil (fun c hc => ctype_of_mem_bookingPart hc) (by decide),
    filter_ctype_eq_self (fun c hc => ctype_of_mem_calendarPart hc),
    filter_ctype_eq_nil (fun c hc => ctype_of_mem_bufferPart hc) (by decide),
    filter_ctype_eq_nil (fun c hc => ctype_of_mem_quotaPart hc) (by decide)]
  simp

/-- Filtering the evaluator's conflicts for `buffer_time` entries
recovers exactly check 5's contribution. -/
theorem evaluate_filter_buffer (env : Env) (member : UserId) (scheduledDate : Int)
    (startT durationMinutes : Nat) (excl : Option String) :
    (check_member_availability env member scheduledDate startT durationMinutes
        excl).conflicts.filter (fun c => c.ctype == .bufferTime) =
      bufferPart env member (combine scheduledDate startT)
        (combine scheduledDate startT + durationMinutes) excl := by
  rw [evaluate_conflicts_eq]
  simp only [List.filter_append]
  rw [filter_ctype_eq_nil (fun c hc => ctype_of_mem_workingHoursPart hc) (by decide),
    filter_ctype_eq_nil (fun c hc => ctype_of_mem_overridePart hc) (by decide),
    filter_ctype_eq_nil (fun c hc => ctype_of_mem_bookingPart hc) (by decide),
    filter_ctype_eq_nil (fun c hc => ctype_of_mem_calendarPart hc) (by decide),
    filter_ctype_eq_self (fun c hc => ctype_of_mem_bufferPart hc),
    filter_ctype_eq_nil (fun c hc => ctype_of_mem_quotaPart hc) (by decide)]
  simp

/-- Filtering the evaluator's conflicts for `availability_rule` entries
recovers exactly check 6's contribution. -/
theorem evaluate_filter_quota (env : Env) (member : UserId) (scheduledDate : Int)
    (startT durationMinutes : Nat) (excl : Option String) :
    (check_member_availability env member scheduledDate startT durationMinutes
        excl).conflicts.filter (fun c => c.ctype == .availabilityRule) =
      quotaPart env member scheduledDate := by
  rw [evaluate_conflicts_eq]
  simp only [List.filter_append]
  rw [filter_ctype_eq_nil (fun c hc => ctype_of_mem_workingHoursPart hc) (by decide),
    filter_ctype_eq_nil (fun c hc => ctype_of_mem_overridePart hc) (by decide),
    filter_ctype_eq_nil (fun c hc => ctype_of_mem_bookingPart hc) (by decide),
    filter_ctype_eq_nil (fun c hc => ctype_of_mem_calendarPart hc) (by decide),
    filter_ctype_eq_nil (fun c hc => ctype_of_mem_bufferPart hc) (by decide),
    filter_ctype_eq_self (fun c hc => ctype_of_mem_quotaPart hc)]
  simp

theorem pairwise_rank_const {l : List Conflict} {t : ConflictType}
    (h : ∀ c ∈ l, c.ctype = t) :
    l.Pairwise (fun a b => a.ctype.rank ≤ b.ctype.rank) :=
  List.pairwise_of_forall_mem_list (fun a ha b hb => by rw [h a ha, h b hb])

theorem pairwise_rank_step {t : ConflictType} {l₁ l₂ : List Conflict}
    (h₁ : ∀ c ∈ l₁, c.ctype = t)
    (h₂ : l₂.Pairwise (fun a b => a.ctype.rank ≤ b.ctype.rank))
    (hlb : ∀ b ∈ l₂, t.rank ≤ b.ctype.rank) :
    (l₁ ++ l₂).Pairwise (fun a b => a.ctype.rank ≤ b.ctype.rank)
    ∧ ∀ b ∈ l₁ ++ l₂, t.rank ≤ b.ctype.rank := by
  constructor
  · exact List.pairwise_append.mpr
      ⟨pairwise_rank_const h₁, h₂, fun a ha b hb => by rw [h₁ a ha]; exact hlb b hb⟩
  · intro b hb
    rcases List.mem_append.mp hb with h | h
    · rw [h₁ b h]
    · exact hlb b h

/-- **C6.** Every `evaluate` call runs all six checks: the conflict list is
the concatenation of the six checks' contributions in check order 1–6
(filtering it by each conflict kind recovers exactly that check's
contribution, whatever the other checks produced), the conflict kinds
appear in ascending check order, `available` is true exactly when the list
is empty, and the primary reason is the first conflict's message, or
`none` when there are no conflicts. -/
theorem C6_evaluator_runs_all_checks_in_order (env : Env) (member : UserId)
    (scheduledDate : Int) (startT durationMinutes : Nat) (excl : Option String) :
    ((check_member_availability env member scheduledDate startT durationMinutes excl).available = true
      ↔ (check_member_availability env member scheduledDate startT durationMinutes excl).conflicts = [])
    ∧ (check_member_availability env member scheduledDate startT durationMinutes excl).reason
      = ((check_member_availability env member scheduledDate startT durationMinutes
          excl).conflicts.head?.map (·.message))
    ∧ (check_member_availability env member scheduledDate startT durationMinutes excl).conflicts
      = workingHoursPart env member scheduledDate startT ((startT + durationMinutes) % 1440)
        ++ overridePart env member scheduledDate startT ((startT + durationMinutes) % 1440)
        ++ bookingPart env member scheduledDate startT ((startT + durationMinutes) % 1440) excl
        ++ calendarPart env member (combine scheduledDate startT)
            (combine scheduledDate startT + durationMinutes)
        ++ bufferPart env member (combine scheduledDate startT)
            (combine scheduledDate startT + durationMinutes) excl
        ++ quotaPart env member scheduledDate
    ∧ (check_member_availability env member scheduledDate startT durationMinutes
        excl).conflicts.Pairwise (fun a b => a.ctype.rank ≤ b.ctype.rank)
    ∧ (check_member_availability env member scheduledDate startT durationMinutes
        excl).conflicts.filter (fun c => c.ctype == .workingHours)
      = workingHoursPart env member scheduledDate startT ((startT + durationMinutes) % 1440)
    ∧ (check_member_availability env member scheduledDate startT durationMinutes
        excl).conflicts.filter (fun c => c.ctype == .dateOverride)
      = overridePart env member scheduledDate startT ((startT + durationMinutes) % 1440)
    ∧ (check_member_availability env member scheduledDate startT durationMinutes
        excl).conflicts.filter (fun c => c.ctype == .bookingConflict)
      = bookingPart env member scheduledDate startT ((startT + durationMinutes) % 1440) excl
    ∧ (check_member_availability env member scheduledDate startT durationMinutes
        excl).conflicts.filter (fun c => c.ctype == .calendarEvent)
      = calendarPart env member (combine scheduledDate startT)
          (combine scheduledDate startT + durationMinutes)
    ∧ (check_member_availability env member scheduledDate startT durationMinutes
        excl).conflicts.filter (fun c => c.ctype == .bufferTime)
      = bufferPart env member (combine scheduledDate startT)
          (combine scheduledDate startT + durationMinutes) excl
    ∧ (check_member_availability env member scheduledDate startT durationMinutes
        excl).conflicts.filter (fun c => c.ctype == .availabilityRule)
      = quotaPart env member scheduledDate := by
  refine ⟨List.isEmpty_iff, rfl, evaluate_conflicts_eq env member scheduledDate startT durationMinutes excl,
    ?_, evaluate_filter_workingHours .., evaluate_filter_override .., evaluate_filter_booking ..,
    evaluate_filter_calendar .., evaluate_filter_buffer .., evaluate_filter_quota ..⟩
  rw [evaluate_conflicts_eq]
  have hW : ∀ c ∈ workingHoursPart env member scheduledDate startT
      ((startT + durationMinutes) % 1440), c.ctype = ConflictType.workingHours :=
    fun _ hc => ctype_of_mem_workingHoursPart hc
  have hO : ∀ c ∈ overridePart env member scheduledDate startT
      ((startT + durationMinutes) % 1440), c.ctype = ConflictType.dateOverride :=
    fun _ hc => ctype_of_mem_overridePart hc
  have hB : ∀ c ∈ bookingPart env member scheduledDate startT
      ((startT + durationMinutes) % 1440) excl, c.ctype = ConflictType.bookingConflict :=
    fun _ hc => ctype_of_mem_bookingPart hc
  have hC : ∀ c ∈ calendarPart env member (combine scheduledDate startT)
      (combine scheduledDate startT + durationMinutes), c.ctype = ConflictType.calendarEvent :=
    fun _ hc => ctype_of_mem_calendarPart hc
  have hF : ∀ c ∈ bufferPart env member (combine scheduledDate startT)
      (combine scheduledDate startT + durationMinutes) excl, c.ctype = ConflictType.bufferTime :=
    fun _ hc => ctype_of_mem_bufferPart hc
  have hQ : ∀ c ∈ quotaPart env member scheduledDate,
      c.ctype = ConflictType.availabilityRule :=
    fun _ hc => ctype_of_mem_quotaPart hc
  have s6 : (quotaPart env member scheduledDate).Pairwise
      (fun a b => a.ctype.rank ≤ b.ctype.rank)
      ∧ ∀ b ∈ quotaPart env member scheduledDate,
        ConflictType.rank .availabilityRule ≤ b.ctype.rank :=
    ⟨pairwise_rank_const hQ, fun b hb => by rw [hQ b hb]⟩
  have s5 := pairwise_rank_step hF s6.1
    (fun b hb => le_trans (by decide) (s6.2 b hb))
  have s4 := pairwise_rank_step hC s5.1
    (fun b hb => le_trans (by decide) (s5.2 b hb))
  have s3 := pairwise_rank_step hB s4.1
    (fun b hb => le_trans (by decide) (s4.2 b hb))
  have s2 := pairwise_rank_step hO s3.1
    (fun b hb => le_trans (by decide) (s3.2 b hb))
  have s1 := pairwise_rank_step hW s2.1
    (fun b hb => le_trans (by decide) (s2.2 b hb))
  simpa [List.append_assoc] using s1.1

/-- Witness for C6 at a concrete evaluation: the empty environment yields
an available result with no conflicts, and availability coincides with the
conflict list being empty. -/
theorem C6_witness :
    ((check_member_availability envEmpty "nobody" 0 600 30 none).available = true
      ↔ (check_member_availability envEmpty "nobody" 0 600 30 none).conflicts = []) :=
  (C6_evaluator_runs_all_checks_in_order envEmpty "nobody" 0 600 30 none).1

/-- **C1, counterexample.** With Monday disabled by working hours and a
Monday date override "available 09:00–12:00", evaluating 10:00–10:30 on
that Monday returns `available = false` with a `working_hours` conflict —
not `available = true` as the claim states: the custom-hours override does
not suppress the working-hours check. -/
theorem C1_counterexample :
    (check_member_availability envC1 "alice" 0 600 30 none).available = false
    ∧ ((check_member_availability envC1 "alice" 0 600 30 none).conflicts.map (·.ctype))
      = [.workingHours] := by decide

/-- **C1, amended.** The "available with custom hours" override is
validated *in addition to* working hours, not instead of them: on the
overridden Monday, the 10:00–10:30 slot inside the custom window passes
the date-override check (`check_date_overrides` returns no reason) but
still fails overall with exactly a `working_hours` conflict, and the
13:00–13:30 slot outside the custom window fails with both a
`working_hours` and a `date_override` conflict. -/
theorem C1_amended_override_validated_in_addition :
    ((check_member_availability envC1 "alice" 0 600 30 none).conflicts.map (·.ctype))
      = [.workingHours]
    ∧ check_date_overrides envC1 "alice" 0 600 630 = none
    ∧ ((check_member_availability envC1 "alice" 0 780 30 none).conflicts.map (·.ctype))
      = [.workingHours, .dateOverride]
    ∧ (check_member_availability envC1 "alice" 0 780 30 none).available = false
    ∧ (check_date_overrides envC1 "alice" 0 780 810).isSome = true := by decide

/-- **C2, counterexample.** With `buffer_after = 15` (`buffer_before = 0`)
and an existing booking ending at 10:00, evaluating a new booking starting
at 10:10 returns `available = true` with no conflicts at all — not the
buffer_time failure the claim states. -/
theorem C2_counterexample :
    (check_member_availability envC2a "bob" 10 610 30 none).available = true
    ∧ (check_member_availability envC2a "bob" 10 610 30 none).conflicts = [] := by decide

/-- **C2, amended.** The buffer windows are anchored to the *requested*
booking: `buffer_before` polices bookings ending shortly before the new
start, `buffer_after` bookings starting shortly after the new end.  With
`buffer_before = 15` and an existing booking ending at 10:00, a new
booking starting at 10:10 fails with exactly a buffer_time conflict and
one starting at 10:15 succeeds; with `buffer_after = 15`
(`buffer_before = 0`) the 10:10 start produces no buffer conflict. -/
theorem C2_amended_buffer_anchored_to_request :
    ((check_member_availability envC2b "bob" 10 610 30 none).conflicts.map (·.ctype))
      = [.bufferTime]
    ∧ (check_member_availability envC2b "bob" 10 615 30 none).available = true
    ∧ (check_member_availability envC2a "bob" 10 615 30 none).available = true
    ∧ check_buffer_time_conflicts envC2a "bob" (combine 10 610) (combine 10 640) none
      = [] := by decide

/-! ## C3: DST gap / overlap handling -/
/-- **C3, counterexample.** The local wall-clock time 730 does not exist in
`tzToy` (spring-forward gap [700, 760)), yet `convert_to_utc` succeeds:
pytz's default `is_dst=False` silently resolves it via the standard-time
offset to UTC instant 1030 — whose local wall clock is 790 = 730 + 60,
i.e. the time was shifted by an hour, not rejected. -/
theorem C3_counterexample :
    isNonexistentLocal tzToy 730 = true
    ∧ convert_to_utc 730 tzToy = .ok ⟨1030, 1030, ⟨0, false⟩⟩
    ∧ (astimezone tzToy 1030).wall = 730 + 60 := ⟨by decide, rfl, by decide⟩

/-- **C3, amended.** `convert_to_timezone` / `convert_to_utc` call pytz's
`localize` with its default `is_dst=False`, which never raises: a
nonexistent spring-forward time is silently resolved via the standard-time
offset (shifting the wall clock), and an ambiguous fall-back time silently
resolves to its standard-time occurrence.  The `NonExistentTimeError` /
`AmbiguousTimeError` behaviour the claim describes exists only under
`is_dst=None`, which the code never passes. -/
theorem C3_amended_default_is_dst_false_resolves_silently :
    pytzLocalize tzToy localizeFuel 730 none = .error .nonexistentTime
    ∧ pytzLocalize tzToy localizeFuel 4730 none = .error .ambiguousTime
    ∧ isNonexistentLocal tzToy 730 = true
    ∧ isAmbiguousLocal tzToy 4730 = true
    ∧ convert_to_utc 730 tzToy = .ok ⟨1030, 1030, ⟨0, false⟩⟩
    ∧ (astimezone tzToy 1030).wall = 730 + 60
    ∧ convert_to_utc 4730 tzToy = .ok ⟨5030, 5030, ⟨0, false⟩⟩ :=
  ⟨rfl, rfl, by decide, by decide, rfl, by decide, rfl⟩

theorem filter_counts_absorb (l : List Booking) (p : Booking → Bool)
    (hp : ∀ b, countsForConflicts b.status = false → p b = false) :
    (l.filter (fun b => countsForConflicts b.status)).filter p = l.filter p := by
  induction l with
  | nil => rfl
  | cons b t ih =>
    by_cases h : countsForConflicts b.status = true
    · simp only [List.filter_cons, h, if_pos]
      by_cases hpb : p b = true
      · simp [hpb, ih]
      · simp [List.filter_cons, hpb, ih]
    · have hb : countsForConflicts b.status = false := by simpa using h
      simp [List.filter_cons, hb, hp b hb, ih]

theorem envRestrict_filter (env : Env) (p : Booking → Bool)
    (hp : ∀ b, countsForConflicts b.status = false → p b = false) :
    (envRestrict env).bookings.filter p = env.bookings.filter p :=
  filter_counts_absorb env.bookings p hp

theorem booking_conflicts_restrict (env : Env) (member : UserId) (scheduledDate : Int)
    (startT endT : Nat) (excl : Option String) :
    check_booking_conflicts (envRestrict env) member scheduledDate startT endT excl
      = check_booking_conflicts env member scheduledDate startT endT excl := by
  simp only [check_booking_conflicts]
  rw [envRestrict_filter]
  intro b hb
  simp [hb]

theorem buffer_conflicts_restrict (env : Env) (member : UserId)
    (startDt endDt : Int) (excl : Option String) :
    check_buffer_time_conflicts (envRestrict env) member startDt endDt excl
      = check_buffer_time_conflicts env member startDt endDt excl := by
  simp only [check_buffer_time_conflicts]
  have hr : (envRestrict env).rules = env.rules := rfl
  rw [hr]
  cases hsel : selectRule (env.rules member) with
  | none => rfl
  | some rule =>
    dsimp only
    rw [envRestrict_filter]
    intro b hb
    simp [hb]

theorem day_count_restrict (env : Env) (member : UserId) (scheduledDate : Int) :
    dayBookingCount (envRestrict env) member scheduledDate
      = dayBookingCount env member scheduledDate := by
  simp only [dayBookingCount]
  rw [envRestrict_filter]
  intro b hb
  simp [hb]

theorem week_count_restrict (env : Env) (member : UserId) (weekStart weekEnd : Int) :
    weekBookingCount (envRestrict env) member weekStart weekEnd
      = weekBookingCount env member weekStart weekEnd := by
  simp only [weekBookingCount]
  rw [envRestrict_filter]
  intro b hb
  simp [hb]

theorem availability_rules_restrict (env : Env) (member : UserId) (scheduledDate : Int) :
    check_availability_rules (envRestrict env) member scheduledDate
      = check_availability_rules env member scheduledDate := by
  simp only [check_availability_rules]
  have hr : (envRestrict env).rules = env.rules := rfl
  rw [hr]
  cases hsel : selectRule (env.rules member) with
  | none => rfl
  | some rule =>
    dsimp only
    rw [day_count_restrict, week_count_restrict]

/-- **C4, counterexample.** A `No-Show` booking is non-terminal (neither
Cancelled nor Completed) and overlaps the requested 10:10–10:40 window,
yet evaluation reports no conflict at all — refuting that every
non-terminal status counts toward the conflict checks. -/
theorem C4_counterexample :
    (combine 20 600 < combine 20 640 ∧ combine 20 660 > combine 20 610)
    ∧ BookingStatus.noShow ≠ .cancelled
    ∧ BookingStatus.noShow ≠ .completed
    ∧ (check_member_availability envC4 "carol" 20 610 30 none).available = true
    ∧ (check_member_availability envC4 "carol" 20 610 30 none).conflicts = [] := by decide

/-- **C4, amended.** Exactly the `Pending`/`Confirmed` bookings count
toward the booking-conflict, buffer and quota checks: all three are
unchanged when the bookings are restricted to those two statuses, an
overlapping booking of any other status (including `No-Show` and
`Rescheduled`) produces no booking conflict, and an overlapping
`Pending`/`Confirmed` booking does. -/
theorem C4_amended_only_confirmed_pending_count (env : Env) (member : UserId)
    (scheduledDate : Int) (startT endT : Nat) (startDt endDt : Int) (excl : Option String) :
    (∀ s : BookingStatus, countsForConflicts s = true ↔ (s = .pending ∨ s = .confirmed))
    ∧ check_booking_conflicts (envRestrict env) member scheduledDate startT endT excl
      = check_booking_conflicts env member scheduledDate startT endT excl
    ∧ check_buffer_time_conflicts (envRestrict env) member startDt endDt excl
      = check_buffer_time_conflicts env member startDt endDt excl
    ∧ check_availability_rules (envRestrict env) member scheduledDate
      = check_availability_rules env member scheduledDate
    ∧ (∀ b : Booking, countsForConflicts b.status = false →
        check_booking_conflicts ⟨env.settings, env.rules, [b], env.events⟩
          member scheduledDate startT endT excl = [])
    ∧ (∀ b : Booking, b.assigned.contains member = true →
        countsForConflicts b.status = true →
        b.startDt < combine scheduledDate endT →
        combine scheduledDate startT < b.endDt →
        notExcluded excl b = true →
        check_booking_conflicts ⟨env.settings, env.rules, [b], env.events⟩
          member scheduledDate startT endT excl ≠ []) := by
  refine ⟨fun s => by cases s <;> simp [countsForConflicts],
    booking_conflicts_restrict .., buffer_conflicts_restrict ..,
    availability_rules_restrict .., ?_, ?_⟩
  · intro b hb
    simp [check_booking_conflicts, hb]
  · intro b h₁ h₂ h₃ h₄ h₅
    have h₁' : member ∈ b.assigned := by simpa using h₁
    simp [check_booking_conflicts, h₁', h₂, h₃, h₄, h₅]

/-- Witness for C4's amended theorem at the `envC4` scenario: the No-Show
booking produces no booking conflict even though it overlaps. -/
theorem C4_amended_witness :
    countsForConflicts BookingStatus.noShow = false
    ∧ check_booking_conflicts ⟨envC4.settings, envC4.rules,
        [⟨"N1", combine 20 600, combine 20 660, .noShow, ["carol"]⟩], envC4.events⟩
        "carol" 20 610 640 none = [] :=
  ⟨by decide,
    (C4_amended_only_confirmed_pending_count envC4 "carol" 20 610 640 0 0 none).2.2.2.2.1
      ⟨"N1", combine 20 600, combine 20 660, .noShow, ["carol"]⟩ (by decide)⟩

/-- A `booking_conflict` entry appears in an evaluation's conflict list
precisely when `check_booking_conflicts` (on the wrapped end time) is
nonempty. -/
theorem exists_bookingConflict_iff (env : Env) (member : UserId) (scheduledDate : Int)
    (startT durationMinutes : Nat) (excl : Option String) :
    (∃ c ∈ (check_member_availability env member scheduledDate startT durationMinutes
        excl).conflicts, c.ctype = .bookingConflict)
    ↔ check_booking_conflicts env member scheduledDate startT
        ((startT + durationMinutes) % 1440) excl ≠ [] := by
  constructor
  · rintro ⟨c, hc, hct⟩
    intro hnil
    have hbp : bookingPart env member scheduledDate startT
        ((startT + durationMinutes) % 1440) excl = [] := by
      unfold bookingPart
      rw [hnil]
      rfl
    rw [evaluate_conflicts_eq, hbp] at hc
    simp only [List.append_nil, List.mem_append] at hc
    rcases hc with (((h | h) | h) | h) | h
    · rw [ctype_of_mem_workingHoursPart h] at hct
      exact absurd hct (by decide)
    · rw [ctype_of_mem_overridePart h] at hct
      exact absurd hct (by decide)
    · rw [ctype_of_mem_calendarPart h] at hct
      exact absurd hct (by decide)
    · rw [ctype_of_mem_bufferPart h] at hct
      exact absurd hct (by decide)
    · rw [ctype_of_mem_quotaPart h] at hct
      exact absurd hct (by decide)
  · intro hne
    obtain ⟨bc, hbc⟩ := List.exists_mem_of_ne_nil _ hne
    refine ⟨⟨.bookingConflict, bc.message, some bc.bookingId, none⟩, ?_, rfl⟩
    rw [evaluate_conflicts_eq]
    have hmem : (⟨.bookingConflict, bc.message, some bc.bookingId, none⟩ : Conflict)
        ∈ bookingPart env member scheduledDate startT
          ((startT + durationMinutes) % 1440) excl :=
      List.mem_map_of_mem _ hbc
    simp only [List.mem_append]
    exact Or.inl (Or.inl (Or.inl (Or.inr hmem)))

/-- **C5, counterexample.** Booking A (`Rescheduled`, non-terminal)
half-open-overlaps the requested 10:10–10:40 window, yet evaluating it
reports no booking_conflict — refuting the claimed "if and only if" for
non-terminal A. -/
theorem C5_counterexample :
    (combine 30 600 < combine 30 640 ∧ combine 30 660 > combine 30 610)
    ∧ BookingStatus.rescheduled ≠ .cancelled
    ∧ BookingStatus.rescheduled ≠ .completed
    ∧ (check_member_availability envC5x "dana" 30 610 30 none).conflicts = [] := by decide

/-- **C5, amended.** For a booking A of status `Pending` or `Confirmed`
(the statuses the query actually selects) assigned to the member, and a
same-date window that does not wrap midnight, evaluating B's window
reports a booking_conflict iff `A.start < B.end ∧ A.end > B.start`
(half-open overlap); back-to-back windows produce no conflict, and an
A named by `exclude_booking` is ignored entirely. -/
theorem C5_amended_overlap_iff (st : UserId → Option UserSettings)
    (ru : UserId → List AvailabilityRule) (ev : List CalendarEvent)
    (A : Booking) (member : UserId) (scheduledDate : Int) (startT dur : Nat)
    (hmem : A.assigned.contains member = true)
    (hstatus : countsForConflicts A.status = true)
    (hnowrap : startT + dur < 1440) :
    ((∃ c ∈ (check_member_availability ⟨st, ru, [A], ev⟩ member scheduledDate startT
        dur none).conflicts, c.ctype = .bookingConflict)
      ↔ (A.startDt < combine scheduledDate (startT + dur)
          ∧ combine scheduledDate startT < A.endDt))
    ∧ (A.endDt = combine scheduledDate startT →
        ¬ ∃ c ∈ (check_member_availability ⟨st, ru, [A], ev⟩ member scheduledDate startT
            dur none).conflicts, c.ctype = .bookingConflict)
    ∧ check_booking_conflicts ⟨st, ru, [A], ev⟩ member scheduledDate startT
        ((startT + dur) % 1440) (some A.name) = [] := by
  have hmod : (startT + dur) % 1440 = startT + dur := Nat.mod_eq_of_lt hnowrap
  have hmem' : member ∈ A.assigned := by simpa using hmem
  have hiff : (∃ c ∈ (check_member_availability ⟨st, ru, [A], ev⟩ member scheduledDate startT
      dur none).conflicts, c.ctype = .bookingConflict)
      ↔ (A.startDt < combine scheduledDate (startT + dur)
          ∧ combine scheduledDate startT < A.endDt) := by
    rw [exists_bookingConflict_iff, hmod]
    simp [check_booking_conflicts, notExcluded, hmem', hstatus, and_comm]
  refine ⟨hiff, ?_, ?_⟩
  · intro hback hex
    have := hiff.mp hex
    omega
  · simp [check_booking_conflicts, notExcluded]

/-- Witness for C5's amended theorem: a Confirmed booking 10:00–10:30
overlaps a requested 10:10–10:40 window, and the exclusion empties the
query. -/
theorem C5_amended_witness :
    countsForConflicts bookingA5.status = true
    ∧ (600 + 40 < 1440)
    ∧ check_booking_conflicts ⟨fun _ => none, fun _ => [], [bookingA5], []⟩
        "m" 0 610 ((610 + 40) % 1440) (some bookingA5.name) = [] :=
  ⟨by decide, by decide,
    (C5_amended_overlap_iff (fun _ => none) (fun _ => []) [] bookingA5 "m" 0 610 40
      (by decide) (by decide) (by decide)).2.2⟩

/-- **C10, counterexample.** For a 23:30 + 60-minute request the derived
query window is inverted (end before start) as the claim says, but the
booking-conflict check is *not* empty against every existing booking: a
day-spanning booking still satisfies `start < wrapped_end ∧ end > start`
and is reported. -/
theorem C10_counterexample :
    combine 40 ((1410 + 60) % 1440) < combine 40 1410
    ∧ ((check_member_availability envC10 "frank" 40 1410 60 none).conflicts.map (·.ctype))
      = [.bookingConflict] := by decide

/-- **C10, amended.** When the duration crosses midnight the evaluator
combines the wrapped time-of-day with the same date, producing an
inverted query window (end instant before start instant).  Under that
window the booking-conflict check reports nothing against any booking
that starts at or after the wrapped end or ends at or before the start —
in particular nothing against bookings on the following day, even one
fully overlapping the true requested window there — and can only report a
booking that simultaneously starts before the wrapped end and ends after
the requested start (i.e. spans essentially the whole date). -/
theorem C10_amended_inverted_window (env : Env) (member : UserId) (scheduledDate : Int)
    (startT dur : Nat) (excl : Option String)
    (h1 : startT < 1440) (h2 : 1440 ≤ startT + dur) (h3 : dur < 1440) :
    combine scheduledDate ((startT + dur) % 1440) < combine scheduledDate startT
    ∧ ((∀ b ∈ env.bookings,
          combine scheduledDate ((startT + dur) % 1440) ≤ b.startDt
          ∨ b.endDt ≤ combine scheduledDate startT) →
        ¬ ∃ c ∈ (check_member_availability env member scheduledDate startT dur
            excl).conflicts, c.ctype = .bookingConflict)
    ∧ ((∃ c ∈ (check_member_availability env member scheduledDate startT dur
          excl).conflicts, c.ctype = .bookingConflict) →
        ∃ b ∈ env.bookings,
          b.startDt < combine scheduledDate ((startT + dur) % 1440)
          ∧ combine scheduledDate startT < b.endDt)
    ∧ (check_member_availability envC10b "frank" 40 1410 60 none).conflicts = [] := by
  have hmod : (startT + dur) % 1440 = startT + dur - 1440 := by omega
  refine ⟨?_, ?_, ?_, by decide⟩
  · rw [hmod]
    unfold combine minutesPerDay
    have : (((startT + dur - 1440 : Nat)) : Int) < (startT : Int) := by omega
    omega
  · intro hb hex
    rw [exists_bookingConflict_iff] at hex
    apply hex
    simp only [check_booking_conflicts, List.map_eq_nil_iff]
    rw [List.filter_eq_nil_iff]
    intro b hbmem
    rcases hb b hbmem with h | h
    · simp [show ¬ (b.startDt < combine scheduledDate ((startT + dur) % 1440)) by omega]
    · simp [show ¬ (combine scheduledDate startT < b.endDt) by omega]
  · intro hex
    rw [exists_bookingConflict_iff] at hex
    obtain ⟨bc, hbc⟩ := List.exists_mem_of_ne_nil _ hex
    simp only [check_booking_conflicts, List.mem_map] at hbc
    obtain ⟨b, hbf, -⟩ := hbc
    rw [List.mem_filter] at hbf
    refine ⟨b, hbf.1, ?_⟩
    have := hbf.2
    simp only [Bool.and_eq_true, decide_eq_true_eq] at this
    exact ⟨this.1.1.2, this.1.2⟩

/-- Witness for C10's amended theorem at the `envC10b` scenario: the
request 23:30 + 60 min on day 40 sees no conflict from the fully
overlapping next-day booking. -/
theorem C10_amended_witness :
    (1410 < 1440 ∧ 1440 ≤ 1410 + 60 ∧ 60 < 1440)
    ∧ combine 40 ((1410 + 60) % 1440) < combine 40 1410 :=
  ⟨by decide,
    (C10_amended_inverted_window envC10b "frank" 40 1410 60 none
      (by decide) (by decide) (by decide)).1⟩

theorem stableSort_eq_nil_iff (le : α → α → Bool) (l : List α) :
    stableSort le l = [] ↔ l = [] := by
  have h := List.perm_insertionSort (fun a b => le a b = true) l
  constructor
  · intro h0
    unfold stableSort at h0
    rw [h0] at h
    exact h.symm.eq_nil
  · rintro rfl
    rfl

theorem assign_round_robin_ne_none (l : List DeptMember) (h : l ≠ []) :
    assign_round_robin l ≠ none := by
  unfold assign_round_robin
  rw [Ne, List.head?_eq_none_iff, stableSort_eq_nil_iff]
  exact h

theorem assign_least_busy_ne_none (env : Env) (l : List DeptMember)
    (scheduledDate : Int) (h : l ≠ []) :
    assign_least_busy env l scheduledDate ≠ none := by
  unfold assign_least_busy
  rw [Ne, List.head?_eq_none_iff, stableSort_eq_nil_iff]
  exact h

/-- **C7, counterexample.** A department with an *unset* assignment
algorithm does not fall back to Round Robin: even with an available
member, `assign_to_member` fails at the algorithm guard (the
`frappe.throw` for a missing algorithm), not with a "(default)" method. -/
theorem C7_counterexample :
    (check_member_availability envEmpty "dave" 0 600 30 none).available = true
    ∧ assign_to_member envEmpty deptC7 0 600 30 100 = .error .noAlgorithm :=
  ⟨by decide, rfl⟩

/-- **C7, amended.** Only an *unknown but set* algorithm falls back to
Round Robin with the "(default)" tag; an unset algorithm fails with the
no-algorithm error before members are even considered; and the
no-available-member error occurs exactly when the algorithm is set, active
members exist, and the availability-filtered candidate set is empty. -/
theorem C7_amended_fallback_only_for_unknown (env : Env) (dept : Department)
    (scheduledDate : Int) (startT dur : Nat) (now : Int) :
    (dept.algorithm = none →
      assign_to_member env dept scheduledDate startT dur now = .error .noAlgorithm)
    ∧ (∀ alg, dept.algorithm = some alg → alg ≠ "Round Robin" → alg ≠ "Least Busy" →
        ∀ m, assign_round_robin (availableMembersOf env dept scheduledDate startT dur) = some m →
          assign_to_member env dept scheduledDate startT dur now
            = .ok ({ assignedTo := m.member
                     assignmentMethod := "Round Robin (default)"
                     reason := "Assigned using Round Robin (default) algorithm" },
                   update_member_assignment_tracking dept m.member now))
    ∧ (assign_to_member env dept scheduledDate startT dur now = .error .noAvailableMembers
        ↔ dept.algorithm ≠ none
          ∧ dept.members.filter (·.isActive) ≠ []
          ∧ availableMembersOf env dept scheduledDate startT dur = []) := by
  refine ⟨?_, ?_, ?_⟩
  · intro h0
    unfold assign_to_member
    rw [h0]
  · intro alg halg h1 h2 m hm
    simp only [availableMembersOf] at hm
    have havail : (dept.members.filter (·.isActive)).filter (fun m =>
        (check_member_availability env m.member scheduledDate startT dur).available) ≠ [] := by
      intro h0
      rw [h0] at hm
      simp [assign_round_robin, stableSort, List.insertionSort] at hm
    have hactive : dept.members.filter (·.isActive) ≠ [] := by
      intro h0
      exact havail (by simp [h0])
    unfold assign_to_member
    rw [halg]
    dsimp only
    rw [if_neg (by simpa [List.isEmpty_iff] using hactive),
      if_neg (by simpa [List.isEmpty_iff] using havail),
      if_neg (by simp [h1]), if_neg (by simp [h2]), hm]
    rfl
  · constructor
    · intro heq
      cases halg : dept.algorithm with
      | none =>
        unfold assign_to_member at heq
        rw [halg] at heq
        dsimp only at heq
        exact absurd heq (by simp)
      | some alg =>
        unfold assign_to_member at heq
        rw [halg] at heq
        dsimp only at heq
        by_cases hact : (dept.members.filter (·.isActive)).isEmpty = true
        · rw [if_pos hact] at heq
          exact absurd heq (by simp)
        · rw [if_neg hact] at heq
          by_cases hav : ((dept.members.filter (·.isActive)).filter (fun m =>
              (check_member_availability env m.member scheduledDate startT dur).available)).isEmpty = true
          · refine ⟨by simp [halg], by simpa [List.isEmpty_iff] using hact, ?_⟩
            simpa [availableMembersOf, List.isEmpty_iff] using hav
          · exfalso
            rw [if_neg hav] at heq
            have havne : (dept.members.filter (·.isActive)).filter (fun m =>
                (check_member_availability env m.member scheduledDate startT dur).available) ≠ [] := by
              simpa [List.isEmpty_iff] using hav
            by_cases hrr : (alg == "Round Robin") = true
            · rw [if_pos hrr] at heq
              cases hpick : assign_round_robin ((dept.members.filter (·.isActive)).filter
                  (fun m => (check_member_availability env m.member scheduledDate startT dur).available)) with
              | none => exact assign_round_robin_ne_none _ havne hpick
              | some m => rw [hpick] at heq; exact absurd heq (by simp)
            · rw [if_neg hrr] at heq
              by_cases hlb : (alg == "Least Busy") = true
              · rw [if_pos hlb] at heq
                cases hpick : assign_least_busy env ((dept.members.filter (·.isActive)).filter
                    (fun m => (check_member_availability env m.member scheduledDate startT dur).available))
                    scheduledDate with
                | none => exact assign_least_busy_ne_none env _ scheduledDate havne hpick
                | some m => rw [hpick] at heq; exact absurd heq (by simp)
              · rw [if_neg hlb] at heq
                cases hpick : assign_round_robin ((dept.members.filter (·.isActive)).filter
                    (fun m => (check_member_availability env m.member scheduledDate startT dur).available)) with
                | none => exact assign_round_robin_ne_none _ havne hpick
                | some m => rw [hpick] at heq; exact absurd heq (by simp)
    · rintro ⟨h0, hact, hav⟩
      cases halg : dept.algorithm with
      | none => exact absurd halg h0
      | some alg =>
        unfold assign_to_member
        rw [halg]
        dsimp only
        rw [if_neg (by simpa [List.isEmpty_iff] using hact)]
        rw [if_pos]
        simp only [availableMembersOf] at hav
        simpa [List.isEmpty_iff] using hav

/-- Witness for C7's amended theorem: the unknown algorithm "Fancy" falls
back to Round Robin with the "(default)" tag. -/
theorem C7_amended_witness :
    assign_round_robin (availableMembersOf envEmpty deptC7b 0 600 30)
      = some ⟨"dave", true, 1, none, 0⟩
    ∧ assign_to_member envEmpty deptC7b 0 600 30 100
      = .ok ({ assignedTo := "dave"
               assignmentMethod := "Round Robin (default)"
               reason := "Assigned using Round Robin (default) algorithm" },
             update_member_assignment_tracking deptC7b "dave" 100) :=
  ⟨by decide,
    (C7_amended_fallback_only_for_unknown envEmpty deptC7b 0 600 30 100).2.1
      "Fancy" rfl (by decide) (by decide) ⟨"dave", true, 1, none, 0⟩ (by decide)⟩

/-- **C8.** Round Robin sorts the available members ascending by
`last_assigned_datetime` (never-assigned keyed as the 1970 epoch, instant
0), so whenever every recorded assignment instant is positive no assigned
member precedes a never-assigned one; it picks the head, which minimises
the key over the whole candidate set; a successful assignment stamps the
chosen member's row with `last_assigned_datetime = now` and increments its
`total_assignments`; and three sequential assignments to a fresh
three-member department select three distinct members. -/
theorem C8_round_robin_fairness :
    (∀ avail : List DeptMember,
      (∀ m ∈ avail, ∀ t, m.lastAssigned = some t → 0 < t) →
        (stableSort (fun a b => rrKey a ≤ rrKey b) avail).Pairwise
            (fun a b => rrKey a ≤ rrKey b)
          ∧ (stableSort (fun a b => rrKey a ≤ rrKey b) avail).Pairwise
              (fun a b => b.lastAssigned = none → a.lastAssigned = none))
    ∧ (∀ (avail : List DeptMember) (m : DeptMember),
        assign_round_robin avail = some m →
          m ∈ avail ∧ ∀ m' ∈ avail, rrKey m ≤ rrKey m')
    ∧ (∀ (pre post : List DeptMember) (m : DeptMember) (now : Int),
        (∀ x ∈ pre, x.member ≠ m.member) →
          updateFirstMember m.member now (pre ++ m :: post)
            = pre ++ { m with lastAssigned := some now,
                              totalAssignments := m.totalAssignments + 1 } :: post)
    ∧ (assign_to_member envEmpty deptRR 0 600 30 100
        = .ok ({ assignedTo := "a", assignmentMethod := "Round Robin",
                 reason := "Assigned using Round Robin algorithm" }, deptRR1)
      ∧ assign_to_member envEmpty deptRR1 1 600 30 200
        = .ok ({ assignedTo := "b", assignmentMethod := "Round Robin",
                 reason := "Assigned using Round Robin algorithm" }, deptRR2)
      ∧ assign_to_member envEmpty deptRR2 2 600 30 300
        = .ok ({ assignedTo := "c", assignmentMethod := "Round Robin",
                 reason := "Assigned using Round Robin algorithm" }, deptRR3)) := by
  have hsorted : ∀ avail : List DeptMember,
      (stableSort (fun a b => rrKey a ≤ rrKey b) avail).Pairwise
        (fun a b => rrKey a ≤ rrKey b) := by
    intro avail
    haveI : IsTotal DeptMember (fun a b => (decide (rrKey a ≤ rrKey b)) = true) :=
      ⟨fun a b => by
        simp only [decide_eq_true_eq]
        omega⟩
    haveI : IsTrans DeptMember (fun a b => (decide (rrKey a ≤ rrKey b)) = true) :=
      ⟨fun a b c hab hbc => by
        simp only [decide_eq_true_eq] at hab hbc ⊢
        omega⟩
    have h := List.sorted_insertionSort
      (fun a b : DeptMember => (decide (rrKey a ≤ rrKey b)) = true) avail
    exact h.imp (fun hab => of_decide_eq_true hab)
  have hperm : ∀ avail : List DeptMember,
      List.Perm (stableSort (fun a b => rrKey a ≤ rrKey b) avail) avail := fun avail =>
    List.perm_insertionSort _ avail
  refine ⟨?_, ?_, ?_, rfl, rfl, rfl⟩
  · intro avail h
    refine ⟨hsorted avail, ?_⟩
    refine (hsorted avail).imp_of_mem ?_
    intro a b ha hb hab hbnone
    have ha' : a ∈ avail := (hperm avail).mem_iff.mp ha
    cases hla : a.lastAssigned with
    | none => rfl
    | some t =>
      exfalso
      have ht : 0 < t := h a ha' t hla
      have hka : rrKey a = t := by simp [rrKey, hla]
      have hkb : rrKey b = 0 := by simp [rrKey, hbnone]
      omega
  · intro avail m hm
    unfold assign_round_robin at hm
    have hmem : m ∈ stableSort (fun a b => rrKey a ≤ rrKey b) avail :=
      List.mem_of_mem_head? hm
    refine ⟨(hperm avail).mem_iff.mp hmem, ?_⟩
    intro m' hm'
    have hm's : m' ∈ stableSort (fun a b => rrKey a ≤ rrKey b) avail :=
      (hperm avail).mem_iff.mpr hm'
    cases hs : stableSort (fun a b => rrKey a ≤ rrKey b) avail with
    | nil => rw [hs] at hm's; cases hm's
    | cons x xs =>
      rw [hs] at hm hm's
      have hx : x = m := by simpa using hm
      subst hx
      have hsort := hsorted avail
      rw [hs] at hsort
      rcases List.mem_cons.mp hm's with rfl | hmem'
      · exact le_refl _
      · exact List.rel_of_sorted_cons hsort m' hmem'
  · intro pre post m now hpre
    induction pre with
    | nil => simp [updateFirstMember]
    | cons x xs ih =>
      have hx : (x.member == m.member) = false := by
        simpa using hpre x (by simp)
      simp only [List.cons_append, updateFirstMember, hx, Bool.false_eq_true, if_false,
        List.append_eq]
      exact congrArg (x :: ·) (ih (fun y hy => hpre y (by simp [hy])))

/-- Witness for C8 at a concrete candidate list: the never-assigned member
is selected over the previously assigned one, and it minimises the key. -/
theorem C8_round_robin_witness :
    assign_round_robin [⟨"y", true, 1, some 50, 3⟩, ⟨"x", true, 1, none, 0⟩]
      = some ⟨"x", true, 1, none, 0⟩
    ∧ (⟨"x", true, 1, none, 0⟩ : DeptMember)
        ∈ [⟨"y", true, 1, some 50, 3⟩, ⟨"x", true, 1, none, 0⟩]
    ∧ ∀ m' ∈ [(⟨"y", true, 1, some 50, 3⟩ : DeptMember), ⟨"x", true, 1, none, 0⟩],
        rrKey ⟨"x", true, 1, none, 0⟩ ≤ rrKey m' :=
  ⟨by decide,
    (C8_round_robin_fairness.2.1
      [⟨"y", true, 1, some 50, 3⟩, ⟨"x", true, 1, none, 0⟩]
      ⟨"x", true, 1, none, 0⟩ (by decide)).1,
    (C8_round_robin_fairness.2.1
      [⟨"y", true, 1, some 50, 3⟩, ⟨"x", true, 1, none, 0⟩]
      ⟨"x", true, 1, none, 0⟩ (by decide)).2⟩

/-- **C9, counterexample.** Two same-day `No-Show` bookings are
non-terminal, yet with `max_bookings_per_day = 2` a third booking passes
the quota check and the whole evaluation — refuting that non-terminal
bookings count toward the quota. -/
theorem C9_counterexample :
    BookingStatus.noShow ≠ .cancelled
    ∧ BookingStatus.noShow ≠ .completed
    ∧ check_availability_rules envC9x "erin" 30 = none
    ∧ (check_member_availability envC9x "erin" 30 720 30 none).available = true := by decide

/-- **C9, amended.** The quota check counts only `Pending`/`Confirmed`
bookings (restricting the bookings to those statuses changes nothing): on
the requested date for the daily cap and over the Monday–Sunday week
containing that date for the weekly cap (the week starts `weekday` days
earlier, on a Monday, and spans 7 days); with a daily cap configured and
no weekly cap it rejects iff the daily count is at or over the cap; caps
of 0/unset (or no rule at all) mean unlimited.  In particular with
`max_bookings_per_day = 2`, two same-day Confirmed bookings make a third
fail with an availability_rule conflict while a single one lets a second
through. -/
theorem C9_amended_quota_counts_confirmed_pending (env : Env) (member : UserId)
    (scheduledDate : Int) :
    check_availability_rules (envRestrict env) member scheduledDate
      = check_availability_rules env member scheduledDate
    ∧ (∀ rule, selectRule (env.rules member) = some rule → rule.maxPerWeek = 0 →
        ((check_availability_rules env member scheduledDate).isSome = true
          ↔ rule.maxPerDay ≠ 0 ∧ dayBookingCount env member scheduledDate ≥ rule.maxPerDay))
    ∧ (∀ rule, selectRule (env.rules member) = some rule →
        rule.maxPerDay = 0 → rule.maxPerWeek = 0 →
        check_availability_rules env member scheduledDate = none)
    ∧ (selectRule (env.rules member) = none →
        check_availability_rules env member scheduledDate = none)
    ∧ (weekdayNat (scheduledDate - (weekdayNat scheduledDate : Int)) = 0
        ∧ scheduledDate - (weekdayNat scheduledDate : Int) ≤ scheduledDate
        ∧ scheduledDate ≤ scheduledDate - (weekdayNat scheduledDate : Int) + 6)
    ∧ ((check_member_availability envC9a "erin" 30 720 30 none).conflicts.map (·.ctype)
        = [.availabilityRule])
    ∧ (check_member_availability envC9b "erin" 30 720 30 none).available = true := by
  refine ⟨availability_rules_restrict .., ?_, ?_, ?_, ?_, by decide, by decide⟩
  · intro rule hsel hweek
    unfold check_availability_rules
    rw [hsel]
    dsimp only
    by_cases hday : (rule.maxPerDay ≠ 0
        ∧ dayBookingCount env member scheduledDate ≥ rule.maxPerDay)
    · rw [if_pos (by simp [hday.1, hday.2])]
      simpa using hday
    · rw [if_neg (by simpa using hday), if_neg (by simp [hweek])]
      simpa using hday
  · intro rule hsel hday hweek
    unfold check_availability_rules
    rw [hsel]
    dsimp only
    rw [if_neg (by simp [hday]), if_neg (by simp [hweek])]
  · intro hsel
    unfold check_availability_rules
    rw [hsel]
  · refine ⟨?_, ?_, ?_⟩
    · unfold weekdayNat
      have h1 : 0 ≤ scheduledDate % 7 := Int.emod_nonneg _ (by decide)
      have h2 : scheduledDate % 7 < 7 := Int.emod_lt_of_pos _ (by decide)
      have h3 : ((scheduledDate % 7).toNat : Int) = scheduledDate % 7 :=
        Int.toNat_of_nonneg h1
      rw [h3]
      omega
    · have h1 : 0 ≤ scheduledDate % 7 := Int.emod_nonneg _ (by decide)
      unfold weekdayNat
      omega
    · have h1 : 0 ≤ scheduledDate % 7 := Int.emod_nonneg _ (by decide)
      have h2 : scheduledDate % 7 < 7 := Int.emod_lt_of_pos _ (by decide)
      unfold weekdayNat
      omega

/-- Witness for C9's amended theorem at the concrete two-Confirmed-booking
scenario: the daily cap of 2 rejects the third booking. -/
theorem C9_amended_witness :
    selectRule (envC9a.rules "erin")
      = some { isDefault := true, bufferBefore := 0, bufferAfter := 0,
               maxPerDay := 2, maxPerWeek := 0, overrides := [] }
    ∧ (check_availability_rules envC9a "erin" 30).isSome = true :=
  ⟨by decide,
    ((C9_amended_quota_counts_confirmed_pending envC9a "erin" 30).2.1
      { isDefault := true, bufferBefore := 0, bufferAfter := 0,
        maxPerDay := 2, maxPerWeek := 0, overrides := [] }
      (by decide) rfl).mpr (by decide)⟩

end MeetingManager
